import Mathlib

/-!
Shallow embedding of the rippled_monitor message-processing core:
`process_responses/process_validation_output.py` (validator registry,
dedup log, validation stream handler) and
`process_responses/process_output.py` (dispatcher, periodic triggers,
processor loop).  Python dicts become structures with `Option` fields
(`none` = absent key / `None` value); timestamps become `Int`; the
mutable triple `(val_keys, table_validator, processed_validations)`
threaded through the handler becomes the `ValState` record.
-/

namespace RippledMonitor

/-- Configuration surface consumed by the core (field names as in the
settings module the source reads). -/
structure Settings where
  PROCESSED_VAL_MAX : Nat
  REMOVE_DUP_VALIDATORS : Bool
  FORK_CHECK_FREQ : Int
  CONSOLE_REFRESH_TIME : Int
  CONSOLE_OUT : Bool
  HEARTBEAT_INTERVAL : Int
  ADMIN_HEARTBEAT : Bool
  ADMIN_NOTIFICATIONS : List String
  deriving DecidableEq, Repr

/-- One entry of `table_validator`: the dict keys used by
`process_validation_output.py`.  `none` models a `None` value / absent
field. -/
structure ValidatorRecord where
  server_name : String
  master_key : Option String
  validation_public_key : Option String
  server_version : Option String
  base_fee : Option Nat
  load_fee : Option Nat
  ledger_hash : Option String
  ledger_index : Option Nat
  full : Option Bool
  forked : Bool
  time_updated : Option Int
  deriving DecidableEq, Repr

/-- The payload `message['data']` of an inbound message: the fields the
core reads.  `result` models presence of the `result` key ( `'result' in
message['data']` ), `type` the `type` key. -/
structure MessageData where
  result : Option Unit
  type : Option String
  master_key : Option String
  validation_public_key : Option String
  server_version : Option String
  base_fee : Option Nat
  load_fee : Option Nat
  ledger_hash : Option String
  ledger_index : Option Nat
  full : Option Bool
  signature : String
  deriving DecidableEq, Repr

/-- An inbound queue message: `{'data': ..., 'server_url': ...}`. -/
structure Message where
  data : MessageData
  server_url : String
  deriving DecidableEq, Repr

/-- Python truthiness of an optional string: `None` and `''` are falsy. -/
def pyTruthy : Option String → Bool
  | none => false
  | some s => !s.isEmpty

/-- The match test of `update_table_validator` (line 133-134):
`message.get('master_key') and message.get('master_key') ==
validator['master_key'] or message.get('validation_public_key') ==
validator['validation_public_key']`, with Python precedence
`(A and B) or C`. -/
def matchesValidator (message : MessageData) (validator : ValidatorRecord) : Bool :=
  (pyTruthy message.master_key && message.master_key == validator.master_key)
  || (message.validation_public_key == validator.validation_public_key)

/-- The per-record effect of `update_table_validator`: when the match
test holds, every record key also present in the message is overwritten
(`Option.or`) and `time_updated` is stamped to now; otherwise the record
is untouched.  The message carries no `server_name`/`forked`/
`time_updated` keys, so those are never overwritten by the loop. -/
def updateRecord (now : Int) (message : MessageData) (validator : ValidatorRecord) :
    ValidatorRecord :=
  if matchesValidator message validator then
    { server_name := validator.server_name
      master_key := message.master_key.or validator.master_key
      validation_public_key :=
        message.validation_public_key.or validator.validation_public_key
      server_version := message.server_version.or validator.server_version
      base_fee := message.base_fee.or validator.base_fee
      load_fee := message.load_fee.or validator.load_fee
      ledger_hash := message.ledger_hash.or validator.ledger_hash
      ledger_index := message.ledger_index.or validator.ledger_index
      full := message.full.or validator.full
      forked := validator.forked
      time_updated := some now }
  else validator

/-- `update_table_validator(table, message)` (lines 121-141): scan all
records, merging the message into each one that matches. -/
def update_table_validator (now : Int) (table : List ValidatorRecord) (message : Message) :
    List ValidatorRecord :=
  table.map (updateRecord now message.data)

/-- The loop body of `del_dup_validators` (lines 86-97) with its two
accumulators `val_keys` and `table_new`. -/
def del_dup_validators_go :
    List ValidatorRecord → List (Option String) → List ValidatorRecord →
    List (Option String) × List ValidatorRecord
  | [], val_keys, table_new => (val_keys, table_new)
  | validator :: rest, val_keys, table_new =>
    if validator.master_key ∈ val_keys then
      del_dup_validators_go rest val_keys table_new
    else
      del_dup_validators_go rest (val_keys ++ [validator.master_key])
        (table_new ++ [validator])

/-- `del_dup_validators(table)` (lines 78-99): returns the rebuilt
`(val_keys, table_new)` pair. -/
def del_dup_validators (table : List ValidatorRecord) :
    List (Option String) × List ValidatorRecord :=
  del_dup_validators_go table [] []

/-- The mutable state threaded through the validation handler:
`(val_keys, table_validator, processed_validations)`. -/
structure ValState where
  val_keys : List (Option String)
  table_validator : List ValidatorRecord
  processed_validations : List String
  deriving DecidableEq, Repr

/-- `clean_validations` (lines 101-119): when the processed list has
reached `PROCESSED_VAL_MAX`, delete its oldest `int(MAX/2)` entries, and
if `REMOVE_DUP_VALIDATORS` is set additionally rebuild
`(val_keys, table)` via `del_dup_validators`. -/
def clean_validations (settings : Settings) (s : ValState) : ValState :=
  if s.processed_validations.length ≥ settings.PROCESSED_VAL_MAX then
    let half_list := settings.PROCESSED_VAL_MAX / 2
    let processed := s.processed_validations.drop half_list
    if settings.REMOVE_DUP_VALIDATORS then
      let pair := del_dup_validators s.table_validator
      ⟨pair.1, pair.2, processed⟩
    else
      ⟨s.val_keys, s.table_validator, processed⟩
  else s

/-- `process_validations` (lines 143-167): merge the message into the
table, append its signature to the processed list, then prune. -/
def process_validations (settings : Settings) (now : Int) (s : ValState)
    (message : Message) : ValState :=
  let table_validator := update_table_validator now s.table_validator message
  let processed_validations := s.processed_validations ++ [message.data.signature]
  clean_validations settings ⟨s.val_keys, table_validator, processed_validations⟩

/-- The scope filter of `check_validations` (lines 181-182) with Python
precedence `A or (B and C)`:
`master_key in val_keys or validation_public_key in val_keys and
validation_public_key`. -/
def eligibleValidation (s : ValState) (message : Message) : Prop :=
  message.data.master_key ∈ s.val_keys
  ∨ (message.data.validation_public_key ∈ s.val_keys
     ∧ pyTruthy message.data.validation_public_key = true)

instance (s : ValState) (message : Message) : Decidable (eligibleValidation s message) := by
  unfold eligibleValidation; infer_instance

/-- `check_validations` (lines 169-190): process the message when it
passes the scope filter and its signature has not been seen; otherwise
leave the state untouched. -/
def check_validations (settings : Settings) (now : Int) (s : ValState)
    (message : Message) : ValState :=
  if eligibleValidation s message then
    if message.data.signature ∈ s.processed_validations then s
    else process_validations settings now s message
  else s

/-- Feeding a sequence of messages through `check_validations`. -/
def check_validations_list (settings : Settings) (now : Int) :
    ValState → List Message → ValState
  | s, [] => s
  | s, m :: rest =>
    check_validations_list settings now (check_validations settings now s m) rest

/-! ## `process_output.py`: dispatcher, periodic triggers, processor loop -/

/-- Python exception classes the processor loop distinguishes. -/
inductive PyErr where
  | keyError
  | indexError
  | cancelledError
  | keyboardInterrupt
  | otherError
  deriving DecidableEq, Repr

/-- The three handlers `sort_new_messages` can route a message to. -/
inductive Route where
  | server
  | ledger
  | validation
  deriving DecidableEq, Repr

/-- `ResponseProcessor.sort_new_messages` (lines 58-87), as a classifier:
`'result' in message['data']` routes to the server-table handler; else
`message['data']['type']` (KeyError when absent) is compared against
`'ledgerClosed'` and `'validationReceived'`; a message matching no
branch of the if/elif chain falls through with no effect (`.ok none`). -/
def sort_new_messages (message : Message) : Except PyErr (Option Route) :=
  if message.data.result.isSome then .ok (some .server)
  else
    match message.data.type with
    | none => .error .keyError
    | some t =>
      if t = "ledgerClosed" then .ok (some .ledger)
      else if t = "validationReceived" then .ok (some .validation)
      else .ok none

/-- An outbound notification `{'message': ..., 'server': ...}`. -/
structure Notification where
  message : String
  server : String
  deriving DecidableEq, Repr

/-- The trigger bookkeeping of `ResponseProcessor`: the three last-fired
timestamps and the `ll_modes` list the fork checker maintains. -/
structure SchedState where
  time_fork_check : Int
  time_last_output : Int
  last_heartbeat : Int
  ll_modes : List String
  deriving DecidableEq, Repr

/-- `ResponseProcessor.evaluate_forks` (lines 50-56): fires when
`time.time() - self.time_fork_check > FORK_CHECK_FREQ` (strict).
Modelled from the spec: `fork_checker` is an external collaborator
(module `check_forked`, not under src) returning the network modes; its
result is passed in as `fork_modes` and its server/validator-table
updates are not tracked here. -/
def evaluate_forks (settings : Settings) (now : Int) (fork_modes : List String)
    (s : SchedState) : SchedState :=
  if now - s.time_fork_check > settings.FORK_CHECK_FREQ then
    { s with ll_modes := fork_modes, time_fork_check := now }
  else s

/-- `ResponseProcessor.process_console_output` (lines 36-48): fires when
`CONSOLE_OUT is True` and `time.time() - self.time_last_output >=
CONSOLE_REFRESH_TIME`; the printing itself is an external side effect,
only the timestamp update is tracked. -/
def process_console_output (settings : Settings) (now : Int) (s : SchedState) :
    SchedState :=
  if settings.CONSOLE_OUT = true
     ∧ now - s.time_last_output ≥ settings.CONSOLE_REFRESH_TIME then
    { s with time_last_output := now }
  else s

/-- The status string the heartbeat composes (network mode + time). -/
def heartbeat_text (mode : String) (now : Int) : String :=
  "XRPL Livenet Monitor bot heartbeat. LL mode: " ++ mode
    ++ ". Server time (UTC): " ++ toString now ++ "."

/-- `ResponseProcessor.heartbeat_message` (lines 116-136): fires when
`ADMIN_HEARTBEAT` and `time.time() - self.last_heartbeat >=
HEARTBEAT_INTERVAL`; composes the status string from `self.ll_modes[0]`
(IndexError when `ll_modes` is empty) and enqueues one notification per
entry of `ADMIN_NOTIFICATIONS`. -/
def heartbeat_message (settings : Settings) (now : Int) (s : SchedState) :
    Except PyErr (SchedState × List Notification) :=
  if settings.ADMIN_HEARTBEAT = true
     ∧ now - s.last_heartbeat ≥ settings.HEARTBEAT_INTERVAL then
    match s.ll_modes with
    | [] => .error .indexError
    | mode :: _ =>
      .ok ({ s with last_heartbeat := now },
           settings.ADMIN_NOTIFICATIONS.map (fun admin => ⟨heartbeat_text mode now, admin⟩))
  else .ok (s, [])

/-- The periodic-trigger tail of one loop iteration (lines 151-153):
`evaluate_forks`, then `process_console_output`, then
`heartbeat_message`, in that order. -/
def run_triggers (settings : Settings) (now : Int) (fork_modes : List String)
    (s : SchedState) : Except PyErr (SchedState × List Notification) :=
  let s1 := evaluate_forks settings now fork_modes s
  let s2 := process_console_output settings now s1
  heartbeat_message settings now s2

/-- Running the trigger tail once per processed message, at the given
sequence of wall-clock times, collecting each iteration's batch of
heartbeat notifications. -/
def run_triggers_seq (settings : Settings) (fork_modes : List String) :
    SchedState → List Int → Except PyErr (SchedState × List (List Notification))
  | s, [] => .ok (s, [])
  | s, now :: rest => do
    let (s1, nots) ← run_triggers settings now fork_modes s
    let (s2, more) ← run_triggers_seq settings fork_modes s1 rest
    .ok (s2, nots :: more)

/-- What the loop's `except` clauses log. -/
inductive LogEntry where
  | warning (e : PyErr) (m : Message)
  | critical_stop
  | critical (e : PyErr)
  deriving DecidableEq, Repr

/-- The outcome of draining a message list through the loop: final
state, what was logged at the loop boundary, and how many messages were
consumed before the loop ended. -/
structure LoopResult (σ : Type) where
  state : σ
  log : List LogEntry
  consumed : Nat
  deriving DecidableEq, Repr

/-- `asyncio.CancelledError` and `KeyboardInterrupt` are the two classes
the loop exits on. -/
def isInterrupt : PyErr → Bool
  | .cancelledError => true
  | .keyboardInterrupt => true
  | _ => false

/-- `ResponseProcessor.process_messages` (lines 147-161), the `while
True` / `try` / `except` structure over a drained prefix of the inbound
queue.  The body (dispatch plus trigger tail, whose server-table
collaborators live outside src) is a parameter returning the best-effort
state together with the exception it raised, if any: `KeyError` is
logged as a warning and the loop continues; `CancelledError` /
`KeyboardInterrupt` log a critical message and break; any other
exception is logged critical and swallowed. -/
def process_messages {σ : Type} (body : σ → Message → σ × Option PyErr) :
    σ → List Message → LoopResult σ
  | s, [] => ⟨s, [], 0⟩
  | s, m :: rest =>
    let step := body s m
    match step.2 with
    | none =>
      let r := process_messages body step.1 rest
      ⟨r.state, r.log, r.consumed + 1⟩
    | some e =>
      if e = .keyError then
        let r := process_messages body step.1 rest
        ⟨r.state, .warning e m :: r.log, r.consumed + 1⟩
      else if isInterrupt e then
        ⟨step.1, [.critical_stop], 1⟩
      else
        let r := process_messages body step.1 rest
        ⟨r.state, .critical e :: r.log, r.consumed + 1⟩

/-! ## Helper lemmas about the dedup log -/

lemma clean_validations_processed (settings : Settings) (s : ValState) :
    (clean_validations settings s).processed_validations =
      if s.processed_validations.length ≥ settings.PROCESSED_VAL_MAX then
        s.processed_validations.drop (settings.PROCESSED_VAL_MAX / 2)
      else s.processed_validations := by
  by_cases h : s.processed_validations.length ≥ settings.PROCESSED_VAL_MAX
  · by_cases hrd : settings.REMOVE_DUP_VALIDATORS <;>
      simp [clean_validations, h, hrd]
  · simp [clean_validations, h]

lemma process_validations_processed (settings : Settings) (now : Int) (s : ValState)
    (m : Message) :
    (process_validations settings now s m).processed_validations =
      if s.processed_validations.length + 1 ≥ settings.PROCESSED_VAL_MAX then
        (s.processed_validations ++ [m.data.signature]).drop
          (settings.PROCESSED_VAL_MAX / 2)
      else s.processed_validations ++ [m.data.signature] := by
  rw [process_validations, clean_validations_processed]
  simp [List.length_append]

lemma signature_mem_process (settings : Settings) (now : Int) (s : ValState) (m : Message) :
    m.data.signature ∈ (process_validations settings now s m).processed_validations := by
  rw [process_validations_processed]
  split
  · rename_i hge
    rw [List.drop_append_of_le_length (by omega)]
    exact List.mem_append_right _ (by simp)
  · exact List.mem_append_right _ (by simp)

lemma check_validations_length_lt (settings : Settings) (now : Int) (s : ValState)
    (m : Message) (hM : 2 ≤ settings.PROCESSED_VAL_MAX)
    (h : s.processed_validations.length < settings.PROCESSED_VAL_MAX) :
    (check_validations settings now s m).processed_validations.length
      < settings.PROCESSED_VAL_MAX := by
  unfold check_validations
  split
  · split
    · exact h
    · rw [process_validations_processed]
      split <;> simp only [List.length_drop, List.length_append, List.length_singleton] <;> omega
  · exact h

lemma check_validations_list_length_lt (settings : Settings) (now : Int)
    (hM : 2 ≤ settings.PROCESSED_VAL_MAX) :
    ∀ (msgs : List Message) (s : ValState),
      s.processed_validations.length < settings.PROCESSED_VAL_MAX →
      (check_validations_list settings now s msgs).processed_validations.length
        < settings.PROCESSED_VAL_MAX
  | [], _, h => h
  | m :: rest, s, h =>
    check_validations_list_length_lt settings now hM rest _
      (check_validations_length_lt settings now s m hM h)

/-! ## Concrete fixtures -/

/-- A validator record carrying only identity keys, as at startup. -/
def vrec (name : String) (mk vpk : Option String) : ValidatorRecord :=
  ⟨name, mk, vpk, none, none, none, none, none, none, false, none⟩

/-- A validation-stream message carrying only identity keys and a
signature. -/
def vmsg (mk vpk : Option String) (sig : String) : Message :=
  ⟨⟨none, some "validationReceived", mk, vpk, none, none, none, none, none, none, sig⟩,
   "url"⟩

def w_settings : Settings := ⟨2, false, 0, 0, false, 0, false, []⟩

def w_state : ValState := ⟨[some "M", some "E"], [vrec "vM" (some "M") (some "E")], []⟩

def c1_settings : Settings := ⟨1, false, 0, 0, false, 0, false, []⟩

/-! ## C1 -/

/-- C1 counterexample: with the ceiling configured to 1 the prune
deletes `int(1/2) = 0` entries, so two unique-signature eligible
messages leave the dedup log at length 2, exceeding
`PROCESSED_VAL_MAX`. -/
theorem c1_counterexample :
    (vmsg (some "M") none "s1").data.signature
        ≠ (vmsg (some "M") none "s2").data.signature
    ∧ ¬ ((check_validations_list c1_settings 0 ⟨[some "M"], [], []⟩
          [vmsg (some "M") none "s1", vmsg (some "M") none "s2"]).processed_validations.length
        ≤ c1_settings.PROCESSED_VAL_MAX) := by
  decide

/-- C1 (amended: provided `PROCESSED_VAL_MAX ≥ 2` — with a ceiling of 0
or 1 the halving prune deletes zero entries and the log grows without
bound): for every sequence of validation messages with pairwise-distinct
signatures, starting from a log shorter than the ceiling, the
processed-signature log's length after each message never exceeds
`PROCESSED_VAL_MAX`; and on a message whose insertion makes the length
reach the ceiling, the halving prune fires — the log becomes
`(log ++ [signature]).drop (PROCESSED_VAL_MAX / 2)` — leaving length at
most `PROCESSED_VAL_MAX / 2 + 1`. -/
theorem c1_dedup_log_bounded_growth (settings : Settings) (now : Int)
    (hM : 2 ≤ settings.PROCESSED_VAL_MAX)
    (msgs : List Message)
    (hsig : (msgs.map fun m => m.data.signature).Nodup)
    (s0 : ValState)
    (h0 : s0.processed_validations.length < settings.PROCESSED_VAL_MAX) :
    (∀ pre, pre <+: msgs →
      (check_validations_list settings now s0 pre).processed_validations.length
        ≤ settings.PROCESSED_VAL_MAX)
    ∧ (∀ (s : ValState) (m : Message),
        s.processed_validations.length + 1 = settings.PROCESSED_VAL_MAX →
        eligibleValidation s m →
        m.data.signature ∉ s.processed_validations →
        (check_validations settings now s m).processed_validations
            = (s.processed_validations ++ [m.data.signature]).drop
                (settings.PROCESSED_VAL_MAX / 2)
          ∧ (check_validations settings now s m).processed_validations.length
              ≤ settings.PROCESSED_VAL_MAX / 2 + 1) := by
  constructor
  · intro pre _
    exact le_of_lt (check_validations_list_length_lt settings now hM pre s0 h0)
  · intro s m hlen helig hfresh
    have h1 : check_validations settings now s m = process_validations settings now s m := by
      unfold check_validations
      rw [if_pos helig, if_neg hfresh]
    have h2 : (check_validations settings now s m).processed_validations
        = (s.processed_validations ++ [m.data.signature]).drop
            (settings.PROCESSED_VAL_MAX / 2) := by
      rw [h1, process_validations_processed,
        if_pos (show s.processed_validations.length + 1 ≥ settings.PROCESSED_VAL_MAX by omega)]
    refine ⟨h2, ?_⟩
    rw [h2]
    simp only [List.length_drop, List.length_append, List.length_singleton]
    omega

/-- C1 witness: the amended theorem instantiated at ceiling 2 and two
unique-signature eligible messages. -/
theorem c1_witness :
    (∀ pre, pre <+: [vmsg (some "M") none "s1", vmsg (some "M") none "s2"] →
      (check_validations_list w_settings 0 ⟨[some "M"], [], []⟩ pre).processed_validations.length
        ≤ w_settings.PROCESSED_VAL_MAX)
    ∧ (∀ (s : ValState) (m : Message),
        s.processed_validations.length + 1 = w_settings.PROCESSED_VAL_MAX →
        eligibleValidation s m →
        m.data.signature ∉ s.processed_validations →
        (check_validations w_settings 0 s m).processed_validations
            = (s.processed_validations ++ [m.data.signature]).drop
                (w_settings.PROCESSED_VAL_MAX / 2)
          ∧ (check_validations w_settings 0 s m).processed_validations.length
              ≤ w_settings.PROCESSED_VAL_MAX / 2 + 1) :=
  c1_dedup_log_bounded_growth w_settings 0 (by decide)
    [vmsg (some "M") none "s1", vmsg (some "M") none "s2"] (by decide)
    ⟨[some "M"], [], []⟩ (by decide)

/-! ## C2 -/

/-- C2: for an eligible validation message with a fresh signature, the
first application of `check_validations` performs the single mutation
(`process_validations`), and a second application with the same
signature is a no-op: key set, validator table and processed-signature
log are unchanged. -/
theorem c2_dedup_idempotent (settings : Settings) (now : Int) (s : ValState) (m : Message)
    (helig : eligibleValidation s m)
    (hfresh : m.data.signature ∉ s.processed_validations) :
    check_validations settings now s m = process_validations settings now s m
    ∧ check_validations settings now (check_validations settings now s m) m
        = check_validations settings now s m := by
  have h1 : check_validations settings now s m = process_validations settings now s m := by
    unfold check_validations
    rw [if_pos helig, if_neg hfresh]
  refine ⟨h1, ?_⟩
  rw [h1]
  unfold check_validations
  by_cases he2 : eligibleValidation (process_validations settings now s m) m
  · rw [if_pos he2, if_pos (signature_mem_process settings now s m)]
  · rw [if_neg he2]

/-- C2 witness: the idempotence theorem at a concrete tracked validator
and message. -/
theorem c2_witness :
    check_validations w_settings 7 w_state (vmsg (some "M") none "s1")
        = process_validations w_settings 7 w_state (vmsg (some "M") none "s1")
    ∧ check_validations w_settings 7
          (check_validations w_settings 7 w_state (vmsg (some "M") none "s1"))
          (vmsg (some "M") none "s1")
        = check_validations w_settings 7 w_state (vmsg (some "M") none "s1") :=
  c2_dedup_idempotent w_settings 7 w_state (vmsg (some "M") none "s1")
    (by decide) (by decide)

/-! ## C3 -/

/-- C3: a validation message whose `master_key` and
`validation_public_key` are both absent from the tracked key set leaves
the whole state — key set, validator table, processed-signature log —
untouched. -/
theorem c3_membership_filter (settings : Settings) (now : Int) (s : ValState) (m : Message)
    (hmk : m.data.master_key ∉ s.val_keys)
    (hvpk : m.data.validation_public_key ∉ s.val_keys) :
    check_validations settings now s m = s := by
  have hne : ¬ eligibleValidation s m := fun h => h.elim (fun h => hmk h) (fun h => hvpk h.1)
  unfold check_validations
  rw [if_neg hne]

/-- C3 witness: a message with untracked keys leaves the concrete state
unchanged. -/
theorem c3_witness :
    check_validations w_settings 7 w_state (vmsg (some "X") (some "Y") "s9") = w_state :=
  c3_membership_filter w_settings 7 w_state (vmsg (some "X") (some "Y") "s9")
    (by decide) (by decide)

/-! ## C4 -/

/-- C4: merging an eligible message that matches the record by
`master_key` and specifies only `ledger_index` overwrites exactly
`ledger_index`, re-stamps `time_updated` to now, and leaves every other
field of the record unchanged. -/
theorem c4_merge_frame (now : Int) (table : List ValidatorRecord) (m : Message)
    (i : Nat) (hi : i < table.length)
    (hi2 : i < (update_table_validator now table m).length) (li : Nat)
    (hmk_t : pyTruthy m.data.master_key = true)
    (hmk_eq : m.data.master_key = table[i].master_key)
    (hB : m.data.ledger_index = some li)
    (h1 : m.data.validation_public_key = none)
    (h2 : m.data.server_version = none)
    (h3 : m.data.base_fee = none)
    (h4 : m.data.load_fee = none)
    (h5 : m.data.ledger_hash = none)
    (h6 : m.data.full = none) :
    (update_table_validator now table m)[i]
      = { table[i] with ledger_index := some li, time_updated := some now } := by
  have hmatch : matchesValidator m.data table[i] = true := by
    rw [hmk_eq] at hmk_t
    simp [matchesValidator, hmk_eq, hmk_t]
  have hor : m.data.master_key.or table[i].master_key = table[i].master_key := by
    rw [hmk_eq]
    cases table[i].master_key <;> rfl
  have hv : (update_table_validator now table m)[i] = updateRecord now m.data table[i] := by
    simp [update_table_validator]
  rw [hv]
  simp [updateRecord, hmatch, hor, hB, h1, h2, h3, h4, h5, h6, Option.none_or]

def c4_msg : Message :=
  ⟨⟨none, some "validationReceived", some "M", none, none, none, none, none,
    some 101, none, "s1"⟩, "url"⟩

/-- C4 witness: the frame theorem at a concrete record and a message
carrying only `master_key` and `ledger_index`. -/
theorem c4_witness :
    (update_table_validator 7 [vrec "vM" (some "M") (some "E")] c4_msg)[0]
      = { vrec "vM" (some "M") (some "E") with
          ledger_index := some 101, time_updated := some 7 } :=
  c4_merge_frame 7 [vrec "vM" (some "M") (some "E")] c4_msg 0 (by decide)
    (by simp [update_table_validator]) 101 (by decide) (by decide) (by decide)
    (by decide) (by decide) (by decide) (by decide) (by decide) (by decide)

/-! ## C10 -/

/-- C10: a validation message that passes the scope filter via its
`master_key` but carries no `validation_public_key` matches — through
the `None == None` comparison in `update_table_validator`'s match test —
every record whose own `validation_public_key` is absent, even when that
record's `master_key` differs from the message's; such records get their
message-supplied fields overwritten and `time_updated` re-stamped. -/
theorem c10_absent_vpk_matches (now : Int) (table : List ValidatorRecord) (m : Message)
    (val_keys : List (Option String))
    (hscope : m.data.master_key ∈ val_keys)
    (hvpk_m : m.data.validation_public_key = none)
    (i : Nat) (hi : i < table.length)
    (hi2 : i < (update_table_validator now table m).length)
    (hvpk_v : table[i].validation_public_key = none)
    (hmk : m.data.master_key ≠ table[i].master_key) :
    matchesValidator m.data table[i] = true
    ∧ (update_table_validator now table m)[i].time_updated = some now
    ∧ ∀ li : Nat, m.data.ledger_index = some li →
        (update_table_validator now table m)[i].ledger_index = some li := by
  have hmatch : matchesValidator m.data table[i] = true := by
    simp [matchesValidator, hvpk_m, hvpk_v]
  have hv : (update_table_validator now table m)[i] = updateRecord now m.data table[i] := by
    simp [update_table_validator]
  refine ⟨hmatch, ?_, ?_⟩
  · rw [hv]
    simp [updateRecord, hmatch]
  · intro li hli
    rw [hv]
    simp [updateRecord, hmatch, hli]

/-- C10 witness: a message for master key `M2` with no ephemeral key
matches and re-stamps a record whose master key is `M1` and whose
ephemeral key is absent. -/
theorem c10_witness :
    matchesValidator (vmsg (some "M2") none "s1").data [vrec "v1" (some "M1") none][0] = true
    ∧ (update_table_validator 7 [vrec "v1" (some "M1") none]
        (vmsg (some "M2") none "s1"))[0].time_updated = some 7
    ∧ ∀ li : Nat, (vmsg (some "M2") none "s1").data.ledger_index = some li →
        (update_table_validator 7 [vrec "v1" (some "M1") none]
          (vmsg (some "M2") none "s1"))[0].ledger_index = some li :=
  c10_absent_vpk_matches 7 [vrec "v1" (some "M1") none] (vmsg (some "M2") none "s1")
    [some "M2"] (by decide) (by decide) 0 (by decide)
    (by simp [update_table_validator]) (by decide) (by decide)

/-! ## Characterizing the dedup pass -/

/-- The records the `del_dup_validators` loop keeps, given the keys
already seen: the first occurrence per `master_key` value. -/
def first_by_key : List (Option String) → List ValidatorRecord → List ValidatorRecord
  | _, [] => []
  | seen, v :: rest =>
    if v.master_key ∈ seen then first_by_key seen rest
    else v :: first_by_key (v.master_key :: seen) rest

lemma first_by_key_congr : ∀ (t : List ValidatorRecord) (s1 s2 : List (Option String)),
    (∀ k, k ∈ s1 ↔ k ∈ s2) → first_by_key s1 t = first_by_key s2 t
  | [], _, _, _ => rfl
  | v :: rest, s1, s2, h => by
    by_cases hv : v.master_key ∈ s1
    · simp only [first_by_key, if_pos hv, if_pos ((h _).mp hv)]
      exact first_by_key_congr rest s1 s2 h
    · simp only [first_by_key, if_neg hv, if_neg (fun hh => hv ((h _).mpr hh))]
      rw [first_by_key_congr rest (v.master_key :: s1) (v.master_key :: s2)
        (by intro k; simp [List.mem_cons, h k])]

lemma del_dup_validators_go_spec :
    ∀ (t : List ValidatorRecord) (ks : List (Option String)) (tn : List ValidatorRecord),
    del_dup_validators_go t ks tn
      = (ks ++ (first_by_key ks t).map (fun v => v.master_key), tn ++ first_by_key ks t)
  | [], ks, tn => by simp [del_dup_validators_go, first_by_key]
  | v :: rest, ks, tn => by
    by_cases hv : v.master_key ∈ ks
    · simp only [del_dup_validators_go, first_by_key, if_pos hv]
      exact del_dup_validators_go_spec rest ks tn
    · simp only [del_dup_validators_go, first_by_key, if_neg hv]
      rw [del_dup_validators_go_spec rest (ks ++ [v.master_key]) (tn ++ [v]),
        first_by_key_congr rest (ks ++ [v.master_key]) (v.master_key :: ks)
          (by intro k; simp [List.mem_append, List.mem_cons, or_comm])]
      simp

lemma first_by_key_filter :
    ∀ (t : List ValidatorRecord) (seen : List (Option String)) (k : Option String),
    (first_by_key seen t).filter (fun v => v.master_key == k)
      = if k ∈ seen then [] else (t.filter (fun v => v.master_key == k)).take 1
  | [], seen, k => by simp [first_by_key]
  | v :: rest, seen, k => by
    by_cases hv : v.master_key ∈ seen
    · simp only [first_by_key, if_pos hv]
      rw [first_by_key_filter rest seen k]
      by_cases hk : k ∈ seen
      · rw [if_pos hk, if_pos hk]
      · have hne : (v.master_key == k) = false := by
          simp only [beq_eq_false_iff_ne, ne_eq]
          intro he
          exact hk (he ▸ hv)
        rw [if_neg hk, if_neg hk]
        simp [List.filter_cons, hne]
    · simp only [first_by_key, if_neg hv]
      by_cases hk : k = v.master_key
      · subst hk
        rw [List.filter_cons, List.filter_cons]
        simp only [beq_self_eq_true, if_true]
        rw [first_by_key_filter rest (v.master_key :: seen) v.master_key,
          if_pos (List.mem_cons_self _ _), if_neg hv]
        simp
      · have hne : (v.master_key == k) = false := by
          simp only [beq_eq_false_iff_ne, ne_eq]
          intro he
          exact hk he.symm
        rw [List.filter_cons, List.filter_cons]
        simp only [hne, Bool.false_eq_true, if_false]
        rw [first_by_key_filter rest (v.master_key :: seen) k]
        by_cases hk2 : k ∈ seen
        · rw [if_pos (List.mem_cons_of_mem _ hk2), if_pos hk2]
        · rw [if_neg (by simp [List.mem_cons, hk, hk2]), if_neg hk2]

lemma first_by_key_nodup :
    ∀ (t : List ValidatorRecord) (seen : List (Option String)),
    ((first_by_key seen t).map (fun v => v.master_key)).Nodup
    ∧ ∀ v ∈ first_by_key seen t, v.master_key ∉ seen := by
  intro t
  induction t with
  | nil => intro seen; simp [first_by_key]
  | cons v rest ih =>
    intro seen
    by_cases hv : v.master_key ∈ seen
    · simp only [first_by_key, if_pos hv]
      exact ih seen
    · simp only [first_by_key, if_neg hv]
      obtain ⟨ih1, ih2⟩ := ih (v.master_key :: seen)
      refine ⟨?_, ?_⟩
      · simp only [List.map_cons, List.nodup_cons]
        refine ⟨?_, ih1⟩
        intro hmem
        obtain ⟨w, hw, hwk⟩ := List.mem_map.mp hmem
        exact ih2 w hw (by rw [hwk]; exact List.mem_cons_self _ _)
      · intro w hw
        rcases List.mem_cons.mp hw with h | h
        · subst h; exact hv
        · exact fun hmem => ih2 w h (List.mem_cons_of_mem _ hmem)

lemma first_by_key_sublist :
    ∀ (t : List ValidatorRecord) (seen : List (Option String)),
    (first_by_key seen t).Sublist t := by
  intro t
  induction t with
  | nil => intro seen; simp [first_by_key]
  | cons v rest ih =>
    intro seen
    by_cases hv : v.master_key ∈ seen
    · simp only [first_by_key, if_pos hv]
      exact (ih seen).cons v
    · simp only [first_by_key, if_neg hv]
      exact (ih _).cons₂ v

/-! ## C5 -/

/-- C5 counterexample: two records both with an absent `master_key` —
the loop's `master_key not in val_keys` test treats `None` as a key, so
the second record is dropped, refuting "records with an absent
master_key are always kept". -/
theorem c5_counterexample :
    (del_dup_validators [vrec "v0" none (some "E0"), vrec "v1" none (some "E1")]).2
        = [vrec "v0" none (some "E0")]
    ∧ (vrec "v1" none (some "E1")).master_key = none
    ∧ vrec "v1" none (some "E1")
        ∉ (del_dup_validators [vrec "v0" none (some "E0"), vrec "v1" none (some "E1")]).2 := by
  decide

/-- C5 (amended: the absent `master_key` is treated as a key value like
any other, so only the first record with an absent `master_key` is kept
and later absent-key records are dropped): `del_dup_validators` keeps
exactly the first record for each `master_key` value — for every key
value `k`, absent included, the kept records with that key are the first
record of the table with that key — preserves their order, and returns a
key list that is exactly the kept records' master keys, each exactly
once. -/
theorem c5_del_dup_first_occurrence (table : List ValidatorRecord) :
    (del_dup_validators table).1
        = (del_dup_validators table).2.map (fun v => v.master_key)
    ∧ (del_dup_validators table).1.Nodup
    ∧ (del_dup_validators table).2.Sublist table
    ∧ ∀ k : Option String,
        (del_dup_validators table).2.filter (fun v => v.master_key == k)
          = (table.filter (fun v => v.master_key == k)).take 1 := by
  have hgo := del_dup_validators_go_spec table [] []
  simp only [List.nil_append] at hgo
  refine ⟨?_, ?_, ?_, ?_⟩
  · simp [del_dup_validators, hgo]
  · simp only [del_dup_validators, hgo]
    exact (first_by_key_nodup table []).1
  · simp only [del_dup_validators, hgo]
    exact first_by_key_sublist table []
  · intro k
    simp only [del_dup_validators, hgo]
    rw [first_by_key_filter table [] k]
    simp

/-! ## C6 -/

def c6_settings : Settings := ⟨1, true, 0, 0, false, 0, false, []⟩

def c6_state : ValState :=
  ⟨[some "M", some "E"], [vrec "vM" (some "M") (some "E")], ["s0"]⟩

/-- C6: when the prune fires with `REMOVE_DUP_VALIDATORS` set, the
replacement key set produced by `del_dup_validators` holds only the kept
records' `master_key` values — the record tracked under master key `M`
and ephemeral key `E` survives intact, yet its non-absent
`validation_public_key` `E` disappears from the tracked key set, though
no duplicate record owning it was dropped. -/
theorem c6_ephemeral_keys_dropped :
    clean_validations c6_settings c6_state
        = ⟨[some "M"], [vrec "vM" (some "M") (some "E")], ["s0"]⟩
    ∧ some "E" ∈ c6_state.val_keys
    ∧ vrec "vM" (some "M") (some "E")
        ∈ (clean_validations c6_settings c6_state).table_validator
    ∧ (vrec "vM" (some "M") (some "E")).validation_public_key = some "E"
    ∧ some "E" ∉ (clean_validations c6_settings c6_state).val_keys := by
  decide

/-! ## C7 -/

/-- C7 counterexample: a message with no `result` key and a `type` value
matching no branch of the if/elif chain — e.g. `transaction` — produces
neither a route nor an exception: the dispatcher silently drops it,
refuting "every message of an unrecognized shape raises a classification
failure". -/
theorem c7_counterexample :
    sort_new_messages
        ⟨⟨none, some "transaction", none, none, none, none, none, none, none, none, "sg"⟩,
         "url"⟩
      = Except.ok none := by
  rfl

/-- C7 (amended: a message lacking both `result` and `type` raises
`KeyError`, which reaches the loop boundary, but a message with a
present yet unrecognized `type` value matches no branch of the if/elif
chain and is silently dropped — no handler runs and no failure is
raised): the dispatcher routes each message to exactly one handler by
shape, `result` present taking precedence, then `type = ledgerClosed`,
then `type = validationReceived`. -/
theorem c7_dispatcher_routing (m : Message) :
    (m.data.result.isSome = true → sort_new_messages m = Except.ok (some Route.server))
    ∧ (m.data.result = none → m.data.type = none →
        sort_new_messages m = Except.error PyErr.keyError)
    ∧ (m.data.result = none → m.data.type = some "ledgerClosed" →
        sort_new_messages m = Except.ok (some Route.ledger))
    ∧ (m.data.result = none → m.data.type = some "validationReceived" →
        sort_new_messages m = Except.ok (some Route.validation))
    ∧ (∀ t : String, m.data.result = none → m.data.type = some t →
        t ≠ "ledgerClosed" → t ≠ "validationReceived" →
        sort_new_messages m = Except.ok none) := by
  refine ⟨?_, ?_, ?_, ?_, ?_⟩
  · intro h
    simp [sort_new_messages, h]
  · intro h1 h2
    simp [sort_new_messages, h1, h2]
  · intro h1 h2
    simp [sort_new_messages, h1, h2]
  · intro h1 h2
    simp [sort_new_messages, h1, h2]
  · intro t h1 h2 h3 h4
    simp [sort_new_messages, h1, h2, h3, h4]

def c7_mServer : Message :=
  ⟨⟨some (), none, none, none, none, none, none, none, none, none, "sg"⟩, "url"⟩

def c7_mNoType : Message :=
  ⟨⟨none, none, none, none, none, none, none, none, none, none, "sg"⟩, "url"⟩

/-- C7 witness: the routing theorem at a server-status response, a
message with no `type`, and a validation message. -/
theorem c7_witness :
    sort_new_messages c7_mServer = Except.ok (some Route.server)
    ∧ sort_new_messages c7_mNoType = Except.error PyErr.keyError
    ∧ sort_new_messages (vmsg (some "M") none "s1") = Except.ok (some Route.validation) :=
  ⟨(c7_dispatcher_routing c7_mServer).1 (by decide),
   (c7_dispatcher_routing c7_mNoType).2.1 rfl rfl,
   (c7_dispatcher_routing (vmsg (some "M") none "s1")).2.2.2.1 rfl rfl⟩

/-! ## C8 -/

lemma evaluate_forks_fields (settings : Settings) (now : Int) (fork_modes : List String)
    (s : SchedState) :
    (evaluate_forks settings now fork_modes s).time_last_output = s.time_last_output
    ∧ (evaluate_forks settings now fork_modes s).last_heartbeat = s.last_heartbeat
    ∧ (evaluate_forks settings now fork_modes s).time_fork_check
        = (if now - s.time_fork_check > settings.FORK_CHECK_FREQ then now
           else s.time_fork_check)
    ∧ (evaluate_forks settings now fork_modes s).ll_modes
        = (if now - s.time_fork_check > settings.FORK_CHECK_FREQ then fork_modes
           else s.ll_modes) := by
  unfold evaluate_forks
  split <;> simp_all

lemma process_console_output_fields (settings : Settings) (now : Int) (s : SchedState) :
    (process_console_output settings now s).time_fork_check = s.time_fork_check
    ∧ (process_console_output settings now s).last_heartbeat = s.last_heartbeat
    ∧ (process_console_output settings now s).ll_modes = s.ll_modes
    ∧ (process_console_output settings now s).time_last_output
        = (if settings.CONSOLE_OUT = true
              ∧ now - s.time_last_output ≥ settings.CONSOLE_REFRESH_TIME then now
           else s.time_last_output) := by
  unfold process_console_output
  split <;> simp_all

lemma heartbeat_message_spec (settings : Settings) (now : Int) (s : SchedState)
    (hs : s.ll_modes ≠ []) :
    ∃ s3 nots, heartbeat_message settings now s = .ok (s3, nots)
      ∧ s3.time_fork_check = s.time_fork_check
      ∧ s3.time_last_output = s.time_last_output
      ∧ s3.ll_modes = s.ll_modes
      ∧ s3.last_heartbeat
          = (if settings.ADMIN_HEARTBEAT = true
                ∧ now - s.last_heartbeat ≥ settings.HEARTBEAT_INTERVAL then now
             else s.last_heartbeat)
      ∧ nots.length
          = (if settings.ADMIN_HEARTBEAT = true
                ∧ now - s.last_heartbeat ≥ settings.HEARTBEAT_INTERVAL then
               settings.ADMIN_NOTIFICATIONS.length
             else 0) := by
  unfold heartbeat_message
  by_cases hb : settings.ADMIN_HEARTBEAT = true
      ∧ now - s.last_heartbeat ≥ settings.HEARTBEAT_INTERVAL
  · rw [if_pos hb]
    cases hm : s.ll_modes with
    | nil => exact absurd hm hs
    | cons mode rest =>
      refine ⟨_, _, rfl, ?_⟩
      simp [hm, hb]
  · rw [if_neg hb]
    refine ⟨_, _, rfl, ?_⟩
    simp [hb]

def c8_settings (admins : List String) : Settings :=
  ⟨2, false, 1000000, 1000000, false, 60, true, admins⟩

def c8x_settings : Settings := ⟨2, false, 10, 0, false, 0, false, []⟩

def c8x_state : SchedState := ⟨0, 0, 0, ["m"]⟩

/-- C8 counterexample: the fork-check trigger uses a strict comparison
(`time.time() - self.time_fork_check > FORK_CHECK_FREQ`), so at
`now - last_fired` exactly equal to the configured interval it does NOT
fire, refuting "each trigger fires if and only if
now - last_fired >= its configured interval". -/
theorem c8_counterexample :
    (10 : Int) - c8x_state.time_fork_check ≥ c8x_settings.FORK_CHECK_FREQ
    ∧ evaluate_forks c8x_settings 10 ["m"] c8x_state = c8x_state := by
  decide

/-- C8 (amended: the fork check fires iff `now - last_fired` is STRICTLY
greater than `FORK_CHECK_FREQ`; the console refresh additionally
requires `CONSOLE_OUT` and the heartbeat additionally requires
`ADMIN_HEARTBEAT`, each with `now - last_fired ≥ interval`): the three
triggers are evaluated in the fixed order fork check → console refresh →
heartbeat on every processed message, each gated independently on the
pre-message timestamps; and with `HEARTBEAT_INTERVAL = 60` and
`ADMIN_HEARTBEAT = true`, messages at t = 0, 10, 30, 61 produce exactly
one heartbeat emission, at the t = 61 message, with one notification per
configured recipient. -/
theorem c8_trigger_cadence :
    (∀ (settings : Settings) (now : Int) (fork_modes : List String) (s : SchedState),
      fork_modes ≠ [] → s.ll_modes ≠ [] →
      ∃ s2 nots, run_triggers settings now fork_modes s = .ok (s2, nots)
        ∧ s2.time_fork_check
            = (if now - s.time_fork_check > settings.FORK_CHECK_FREQ then now
               else s.time_fork_check)
        ∧ s2.time_last_output
            = (if settings.CONSOLE_OUT = true
                  ∧ now - s.time_last_output ≥ settings.CONSOLE_REFRESH_TIME then now
               else s.time_last_output)
        ∧ s2.last_heartbeat
            = (if settings.ADMIN_HEARTBEAT = true
                  ∧ now - s.last_heartbeat ≥ settings.HEARTBEAT_INTERVAL then now
               else s.last_heartbeat)
        ∧ nots.length
            = (if settings.ADMIN_HEARTBEAT = true
                  ∧ now - s.last_heartbeat ≥ settings.HEARTBEAT_INTERVAL then
                 settings.ADMIN_NOTIFICATIONS.length
               else 0))
    ∧ (∀ admins : List String,
        run_triggers_seq (c8_settings admins) ["proposing"] ⟨0, 0, 0, ["proposing"]⟩
            [0, 10, 30, 61]
          = .ok (⟨0, 0, 61, ["proposing"]⟩,
              [[], [], [],
               admins.map (fun admin => ⟨heartbeat_text "proposing" 61, admin⟩)])) := by
  constructor
  · intro settings now fork_modes s hfm hs
    obtain ⟨f1, f2, f3, f4⟩ := evaluate_forks_fields settings now fork_modes s
    obtain ⟨c1, c2, c3, c4⟩ :=
      process_console_output_fields settings now (evaluate_forks settings now fork_modes s)
    have hll :
        (process_console_output settings now
          (evaluate_forks settings now fork_modes s)).ll_modes ≠ [] := by
      rw [c3, f4]
      split <;> assumption
    obtain ⟨s3, nots, hrun, h1, h2, h3, h4, h5⟩ :=
      heartbeat_message_spec settings now
        (process_console_output settings now (evaluate_forks settings now fork_modes s))
        hll
    refine ⟨s3, nots, hrun, ?_, ?_, ?_, ?_⟩
    · rw [h1, c1, f3]
    · rw [h2, c4, f1]
    · rw [h4, c2, f2]
    · rw [h5, c2, f2]
  · intro admins
    rfl

/-- C8 witness: the amended theorem at the t = 61 heartbeat firing and
at a singleton recipient list. -/
theorem c8_witness :
    (∃ s2 nots,
      run_triggers (c8_settings ["alice"]) 61 ["proposing"] ⟨0, 0, 0, ["proposing"]⟩
          = .ok (s2, nots)
        ∧ s2.time_fork_check
            = (if (61 : Int) - (⟨0, 0, 0, ["proposing"]⟩ : SchedState).time_fork_check
                  > (c8_settings ["alice"]).FORK_CHECK_FREQ then (61 : Int)
               else (⟨0, 0, 0, ["proposing"]⟩ : SchedState).time_fork_check)
        ∧ s2.time_last_output
            = (if (c8_settings ["alice"]).CONSOLE_OUT = true
                  ∧ (61 : Int) - (⟨0, 0, 0, ["proposing"]⟩ : SchedState).time_last_output
                      ≥ (c8_settings ["alice"]).CONSOLE_REFRESH_TIME then (61 : Int)
               else (⟨0, 0, 0, ["proposing"]⟩ : SchedState).time_last_output)
        ∧ s2.last_heartbeat
            = (if (c8_settings ["alice"]).ADMIN_HEARTBEAT = true
                  ∧ (61 : Int) - (⟨0, 0, 0, ["proposing"]⟩ : SchedState).last_heartbeat
                      ≥ (c8_settings ["alice"]).HEARTBEAT_INTERVAL then (61 : Int)
               else (⟨0, 0, 0, ["proposing"]⟩ : SchedState).last_heartbeat)
        ∧ nots.length
            = (if (c8_settings ["alice"]).ADMIN_HEARTBEAT = true
                  ∧ (61 : Int) - (⟨0, 0, 0, ["proposing"]⟩ : SchedState).last_heartbeat
                      ≥ (c8_settings ["alice"]).HEARTBEAT_INTERVAL then
                 (c8_settings ["alice"]).ADMIN_NOTIFICATIONS.length
               else 0))
    ∧ run_triggers_seq (c8_settings ["alice"]) ["proposing"] ⟨0, 0, 0, ["proposing"]⟩
          [0, 10, 30, 61]
        = .ok (⟨0, 0, 61, ["proposing"]⟩,
            [[], [], [],
             [⟨heartbeat_text "proposing" 61, "alice"⟩]]) :=
  ⟨c8_trigger_cadence.1 (c8_settings ["alice"]) 61 ["proposing"] ⟨0, 0, 0, ["proposing"]⟩
      (by decide) (by decide),
   c8_trigger_cadence.2 ["alice"]⟩

/-! ## C9 -/

/-- C9: at the loop boundary, a `KeyError` is logged as a warning with
the offending message and the loop continues; `CancelledError` /
`KeyboardInterrupt` cause an orderly exit after a critical log; every
other exception is logged critical and swallowed — and when the body
never raises an interrupt, the loop consumes every message, never
terminating on a bad one. -/
theorem c9_loop_error_handling {σ : Type} (body : σ → Message → σ × Option PyErr) :
    (∀ (s0 : σ) (msgs : List Message),
      (∀ (s : σ) (m : Message) (e : PyErr), (body s m).2 = some e → isInterrupt e = false) →
      (process_messages body s0 msgs).consumed = msgs.length)
    ∧ (∀ (s : σ) (m : Message) (rest : List Message),
        (body s m).2 = some .keyError →
        process_messages body s (m :: rest)
          = ⟨(process_messages body (body s m).1 rest).state,
             .warning .keyError m :: (process_messages body (body s m).1 rest).log,
             (process_messages body (body s m).1 rest).consumed + 1⟩)
    ∧ (∀ (s : σ) (m : Message) (rest : List Message) (e : PyErr),
        (body s m).2 = some e → isInterrupt e = true →
        process_messages body s (m :: rest) = ⟨(body s m).1, [.critical_stop], 1⟩)
    ∧ (∀ (s : σ) (m : Message) (rest : List Message) (e : PyErr),
        (body s m).2 = some e → isInterrupt e = false → e ≠ .keyError →
        process_messages body s (m :: rest)
          = ⟨(process_messages body (body s m).1 rest).state,
             .critical e :: (process_messages body (body s m).1 rest).log,
             (process_messages body (body s m).1 rest).consumed + 1⟩) := by
  refine ⟨?_, ?_, ?_, ?_⟩
  · intro s0 msgs h
    induction msgs generalizing s0 with
    | nil => rfl
    | cons m rest ih =>
      cases hcase : (body s0 m).2 with
      | none =>
        simp [process_messages, hcase, ih]
      | some e =>
        have hni := h s0 m e hcase
        by_cases he : e = .keyError
        · simp [process_messages, hcase, he, ih]
        · simp [process_messages, hcase, he, hni, ih]
  · intro s m rest hcase
    simp [process_messages, hcase]
  · intro s m rest e hcase hint
    have hne : e ≠ .keyError := by
      intro he
      rw [he] at hint
      exact absurd hint (by decide)
    simp [process_messages, hcase, hne, hint]
  · intro s m rest e hcase hint hne
    simp [process_messages, hcase, hne, hint]

/-- A loop body that raises `KeyError` on messages whose signature is
`bad` and succeeds otherwise, counting processed messages. -/
def c9_body : Nat → Message → Nat × Option PyErr := fun n m =>
  (n + 1, if m.data.signature = "bad" then some .keyError else none)

/-- C9 witness: the loop survives a `KeyError` message and consumes the
whole queue. -/
theorem c9_witness :
    (process_messages c9_body 0 [vmsg none none "ok", vmsg none none "bad"]).consumed = 2 :=
  (c9_loop_error_handling c9_body).1 0 [vmsg none none "ok", vmsg none none "bad"]
    (by
      intro s m e he
      by_cases hs : m.data.signature = "bad"
      · simp [c9_body, hs] at he
        rw [← he]
        rfl
      · simp [c9_body, hs] at he)

end RippledMonitor
